import Mathlib

/-!
Verification of the deterministic train/valid/test split assigner and the
path helper from heareval (file src/heareval/tasks/util/luigi.py),
shallowly embedded in Lean 4.  Python integers are modelled by Int or
Nat; the numeric percentage parameters (Python int or float) are
modelled by the rationals; SHA-1 from hashlib is modelled bit-faithfully
over Nat with explicit reduction mod 2 ^ 32; the posixpath operations
os.path.split and os.path.join are modelled on character lists.  The
Python modulo operator on a positive modulus agrees with Int.emod.
-/

/-- Model of `which_set` from src/heareval/tasks/util/luigi.py:

    percentage_hash = filename_hash % 100
    if percentage_hash < validation_percentage: result = "valid"
    elif percentage_hash < (testing_percentage + validation_percentage): result = "test"
    else: result = "train"
    return result
-/
def which_set (filename_hash : ℤ) (validation_percentage testing_percentage : ℚ) : String :=
  let percentage_hash : ℤ := filename_hash % 100
  if (percentage_hash : ℚ) < validation_percentage then "valid"
  else if (percentage_hash : ℚ) < testing_percentage + validation_percentage then "test"
  else "train"

/-- 2 to the 32, the word size of SHA-1 arithmetic. -/
def w32 : ℕ := 4294967296

/-- Rotate a 32-bit word left by n bits (for x below 2 to the 32). -/
def rotl (n x : ℕ) : ℕ := (x * 2 ^ n + x / 2 ^ (32 - n)) % w32

/-- UTF-8 byte encoding of a Unicode code point. -/
def utf8Bytes (c : ℕ) : List ℕ :=
  if c < 128 then [c]
  else if c < 2048 then [192 + c / 64, 128 + c % 64]
  else if c < 65536 then [224 + c / 4096, 128 + c / 64 % 64, 128 + c % 64]
  else [240 + c / 262144, 128 + c / 4096 % 64, 128 + c / 64 % 64, 128 + c % 64]

/-- The UTF-8 byte sequence of a string, modelling text.encode("utf-8")
in Python. -/
def strBytes (s : String) : List ℕ := s.data.flatMap (fun c => utf8Bytes c.toNat)

/-- Big-endian 8-byte encoding of the message bit length, per SHA-1
padding. -/
def lenBytes (ml : ℕ) : List ℕ :=
  [ml / 2 ^ 56 % 256, ml / 2 ^ 48 % 256, ml / 2 ^ 40 % 256, ml / 2 ^ 32 % 256,
   ml / 2 ^ 24 % 256, ml / 2 ^ 16 % 256, ml / 2 ^ 8 % 256, ml % 256]

/-- SHA-1 padding: append the byte 0x80, then zero bytes until the
length is 56 mod 64, then the 64-bit big-endian bit length. -/
def padMsg (msg : List ℕ) : List ℕ :=
  msg ++ 128 :: List.replicate ((120 - (msg.length + 1) % 64) % 64) 0
      ++ lenBytes (msg.length * 8)

/-- Group a byte list into big-endian 32-bit words. -/
def toWords : List ℕ → List ℕ
  | b0 :: b1 :: b2 :: b3 :: rest =>
      (b0 * 16777216 + b1 * 65536 + b2 * 256 + b3) :: toWords rest
  | _ => []

/-- Split a byte list into 64-byte chunks. -/
def chunks64 : List ℕ → List (List ℕ)
  | [] => []
  | b :: rest => ((b :: rest).take 64) :: chunks64 ((b :: rest).drop 64)
termination_by l => l.length
decreasing_by simp [List.length_drop]; omega

/-- Extend the 16 message words of a chunk by k further schedule words:
each new word is the left rotation by one of the xor of the words 3, 8,
14 and 16 places back. -/
def extendW (ws : List ℕ) : ℕ → List ℕ
  | 0 => ws
  | k + 1 =>
      let i := ws.length
      extendW (ws ++ [rotl 1 (((ws.getD (i - 3) 0 ^^^ ws.getD (i - 8) 0) ^^^
        ws.getD (i - 14) 0) ^^^ ws.getD (i - 16) 0)]) k

/-- The SHA-1 round function, by round index. -/
def sha1F (t b c d : ℕ) : ℕ :=
  if t < 20 then (b &&& c) ||| ((b ^^^ 4294967295) &&& d)
  else if t < 40 then (b ^^^ c) ^^^ d
  else if t < 60 then ((b &&& c) ||| (b &&& d)) ||| (c &&& d)
  else (b ^^^ c) ^^^ d

/-- The SHA-1 round constant, by round index. -/
def sha1K (t : ℕ) : ℕ :=
  if t < 20 then 1518500249
  else if t < 40 then 1859775393
  else if t < 60 then 2400959708
  else 3395469782

/-- A five-word SHA-1 state. -/
structure Sha1State where
  h0 : ℕ
  h1 : ℕ
  h2 : ℕ
  h3 : ℕ
  h4 : ℕ

/-- One SHA-1 round on the working state (a, b, c, d, e). -/
def sha1Round (w : List ℕ) (st : Sha1State) (t : ℕ) : Sha1State :=
  let temp := (rotl 5 st.h0 + sha1F t st.h1 st.h2 st.h3 + st.h4 + sha1K t
      + w.getD t 0) % w32
  ⟨temp, st.h0, rotl 30 st.h1, st.h2, st.h3⟩

/-- Process one 64-byte chunk: run the 80 rounds on the expanded message
schedule and add the result back into the hash state mod 2 ^ 32. -/
def processChunk (h : Sha1State) (chunk : List ℕ) : Sha1State :=
  let ws := extendW (toWords chunk) 64
  let f := (List.range 80).foldl (sha1Round ws) h
  ⟨(h.h0 + f.h0) % w32, (h.h1 + f.h1) % w32, (h.h2 + f.h2) % w32,
   (h.h3 + f.h3) % w32, (h.h4 + f.h4) % w32⟩

/-- The initial SHA-1 state. -/
def sha1Init : Sha1State := ⟨1732584193, 4023233417, 2562383102, 271733878, 3285377520⟩

/-- The SHA-1 digest of a byte list, read as a big-endian natural number:
this is the value of int(hashlib.sha1(msg).hexdigest(), 16) in Python. -/
def sha1Digest (msg : List ℕ) : ℕ :=
  let s := (chunks64 (padMsg msg)).foldl processChunk sha1Init
  s.h0 * 2 ^ 128 + s.h1 * 2 ^ 96 + s.h2 * 2 ^ 64 + s.h3 * 2 ^ 32 + s.h4

/-- Model of `filename_to_int_hash` from src/heareval/tasks/util/luigi.py:
the SHA-1 digest of the UTF-8 encoding of text, read as an unsigned
integer via the hexadecimal digest string. -/
def filename_to_int_hash (text : String) : ℕ := sha1Digest (strBytes text)

/-- All five words of a SHA-1 state are below 2 to the 32. -/
def Sha1StateBounded (s : Sha1State) : Prop :=
  s.h0 < w32 ∧ s.h1 < w32 ∧ s.h2 < w32 ∧ s.h3 < w32 ∧ s.h4 < w32

/-- Model of os.path.split(p)[1] (posixpath): the suffix of p after the
last slash, i.e. p[p.rfind(sep)+1:]. -/
def splitTail (p : List Char) : List Char :=
  (p.reverse.takeWhile (fun c => c ≠ '/')).reverse

/-- Model of os.path.join(a, b) (posixpath, two arguments): b when b is
absolute; otherwise a ++ b when a is empty or ends with a slash, and a
++ sep ++ b in the remaining case. -/
def ospathJoin (a b : List Char) : List Char :=
  if b.head? = some '/' then b
  else if a = [] ∨ a.getLast? = some '/' then a ++ b
  else a ++ '/' :: b

/-- Model of `new_basedir` from src/heareval/tasks/util/luigi.py:
os.path.join(basedir, os.path.split(filename)[1]). -/
def new_basedir (filename basedir : String) : String :=
  ⟨ospathJoin basedir.data (splitTail filename.data)⟩

theorem bucket_nonneg (d : ℤ) : 0 ≤ d % 100 :=
  Int.emod_nonneg d (by norm_num)

theorem bucket_lt (d : ℤ) : d % 100 < 100 :=
  Int.emod_lt_of_pos d (by norm_num)

theorem processChunk_bounded (h : Sha1State) (c : List ℕ) :
    Sha1StateBounded (processChunk h c) := by
  unfold Sha1StateBounded processChunk
  refine ⟨?_, ?_, ?_, ?_, ?_⟩ <;> exact Nat.mod_lt _ (by norm_num [w32])

theorem foldl_processChunk_bounded (l : List (List ℕ)) (h : Sha1State)
    (hb : Sha1StateBounded h) : Sha1StateBounded (l.foldl processChunk h) := by
  induction l generalizing h with
  | nil => simpa using hb
  | cons c l ih =>
      rw [List.foldl_cons]
      exact ih (processChunk h c) (processChunk_bounded h c)

theorem sha1Digest_lt (msg : List ℕ) : sha1Digest msg < 2 ^ 160 := by
  simp only [sha1Digest]
  have hb : Sha1StateBounded ((chunks64 (padMsg msg)).foldl processChunk sha1Init) :=
    foldl_processChunk_bounded _ _ (by constructor <;> norm_num [sha1Init, w32])
  obtain ⟨h0, h1, h2, h3, h4⟩ := hb
  simp only [w32] at h0 h1 h2 h3 h4
  omega

theorem takeWhile_append_stop {q : Char → Bool} (xs : List Char) (c : Char)
    (ys : List Char) (hc : q c = false) :
    (xs ++ c :: ys).takeWhile q = xs.takeWhile q := by
  induction xs with
  | nil => simp [List.takeWhile, hc]
  | cons a xs ih =>
      simp only [List.cons_append, List.takeWhile]
      cases q a <;> simp [ih]

theorem splitTail_append_slash (xs ys : List Char) :
    splitTail (xs ++ '/' :: ys) = splitTail ys := by
  unfold splitTail
  rw [List.reverse_append, List.reverse_cons, List.append_assoc,
    List.singleton_append, takeWhile_append_stop _ '/' _ (by decide)]

theorem splitTail_no_slash (p : List Char) :
    (splitTail p).all (fun c => c != '/') = true := by
  rw [List.all_eq_true]
  intro c hc
  unfold splitTail at hc
  rw [List.mem_reverse] at hc
  have := List.mem_takeWhile_imp hc
  simpa using this

theorem splitTail_suffix (p : List Char) :
    ∃ pre, p = pre ++ splitTail p := by
  refine ⟨(p.reverse.dropWhile (fun c => c ≠ '/')).reverse, ?_⟩
  unfold splitTail
  rw [← List.reverse_append, List.takeWhile_append_dropWhile, List.reverse_reverse]

/-- C1: with 0 ≤ v, 0 ≤ t and v + t ≤ 100, which_set follows half-open
interval semantics on bucket = digest mod 100: bucket in [0, v) gives
"valid", bucket in [v, v+t) gives "test", bucket in [v+t, 100) gives
"train"; in particular bucket = v is not sent to "valid" and bucket =
v+t is not sent to "test". -/
theorem whichSet_halfOpen_intervals (digest : ℤ) (v t : ℚ)
    (_hv : 0 ≤ v) (ht : 0 ≤ t) (_hvt : v + t ≤ 100) :
    (((digest % 100 : ℤ) : ℚ) < v → which_set digest v t = "valid") ∧
    (v ≤ ((digest % 100 : ℤ) : ℚ) ∧ ((digest % 100 : ℤ) : ℚ) < v + t →
      which_set digest v t = "test") ∧
    (v + t ≤ ((digest % 100 : ℤ) : ℚ) ∧ ((digest % 100 : ℤ) : ℚ) < 100 →
      which_set digest v t = "train") := by
  simp only [which_set]
  set b : ℚ := ((digest % 100 : ℤ) : ℚ) with hb
  refine ⟨fun h => by simp [h], fun ⟨h1, h2⟩ => ?_, fun ⟨h1, h2⟩ => ?_⟩
  · rw [if_neg (by linarith), if_pos (by linarith)]
  · rw [if_neg (by linarith), if_neg (by linarith)]

/-- Witness for C1: at digest 5 and v = t = 10 the hypotheses hold and
the bucket 5 lies in [0, 10), so the result is "valid". -/
theorem whichSet_halfOpen_intervals_witness : which_set 5 10 10 = "valid" :=
  (whichSet_halfOpen_intervals 5 10 10 (by norm_num) (by norm_num) (by norm_num)).1
    (by norm_num)

/-- C2: for every integer digest and all rational percentages (in
particular all non-negative pairs, including those whose sum exceeds
100) which_set returns one of the three strings "train", "valid",
"test".  Totality, i.e. never raising, is definitional in the
embedding. -/
theorem whichSet_total (digest : ℤ) (v t : ℚ) :
    which_set digest v t = "train" ∨ which_set digest v t = "valid" ∨
      which_set digest v t = "test" := by
  simp only [which_set]
  split
  · right; left; rfl
  · split
    · right; right; rfl
    · left; rfl

/-- C3: the full split assignment is deterministic and pure: two
evaluations of which_set on the hash of the same identifier and the same
percentages are definitionally equal.  In the shallow embedding both
which_set and filename_to_int_hash are pure functions of their explicit
arguments, so there is no hidden state and no dependence on other
calls. -/
theorem whichSet_hash_deterministic (id : String) (v t : ℚ) :
    which_set (filename_to_int_hash id) v t =
      which_set (filename_to_int_hash id) v t := rfl

/-- C4: with both percentages zero, every digest is assigned to
"train". -/
theorem whichSet_zero_zero_train (digest : ℤ) : which_set digest 0 0 = "train" := by
  simp only [which_set]
  have h0 : (0 : ℚ) ≤ ((digest % 100 : ℤ) : ℚ) := by
    exact_mod_cast bucket_nonneg digest
  rw [if_neg (by linarith), if_neg (by linarith)]

/-- C5: with v = 50 and t = 50 no digest is assigned to "train": buckets
below 50 go to "valid" and buckets from 50 up (all of which are below
100) go to "test". -/
theorem whichSet_fifty_fifty_no_train (digest : ℤ) :
    which_set digest 50 50 ≠ "train" ∧
    (((digest % 100 : ℤ) : ℚ) < 50 → which_set digest 50 50 = "valid") ∧
    (50 ≤ ((digest % 100 : ℤ) : ℚ) → which_set digest 50 50 = "test") := by
  have hlt : ((digest % 100 : ℤ) : ℚ) < 100 := by exact_mod_cast bucket_lt digest
  simp only [which_set]
  refine ⟨?_, fun h => by simp [h], fun h => ?_⟩
  · split
    · simp
    · rw [if_pos (by linarith)]; simp
  · rw [if_neg (by linarith), if_pos (by linarith)]

/-- Witness for C5: bucket 49 goes to "valid" and bucket 99 goes to
"test" under the 50/50 split. -/
theorem whichSet_fifty_fifty_no_train_witness :
    which_set 49 50 50 = "valid" ∧ which_set 99 50 50 = "test" :=
  ⟨(whichSet_fifty_fifty_no_train 49).2.1 (by norm_num),
   (whichSet_fifty_fifty_no_train 99).2.2 (by norm_num)⟩

/-- C6: filename_to_int_hash is the SHA-1 digest of the UTF-8 bytes of
the identifier read as an unsigned integer, it always lies in
[0, 2 ^ 160), and the derived bucket digest mod 100 always lies in
[0, 99]. -/
theorem filename_to_int_hash_range (text : String) :
    filename_to_int_hash text < 2 ^ 160 ∧
    filename_to_int_hash text = sha1Digest (strBytes text) ∧
    0 ≤ ((filename_to_int_hash text : ℤ) % 100) ∧
    ((filename_to_int_hash text : ℤ) % 100) < 100 :=
  ⟨sha1Digest_lt _, rfl, bucket_nonneg _, bucket_lt _⟩

/-- C7: with v = 10 and t = 10, bucket 45 gives "train", bucket 5 gives
"valid" and bucket 15 gives "test". -/
theorem whichSet_ten_ten_examples (digest : ℤ) :
    (digest % 100 = 45 → which_set digest 10 10 = "train") ∧
    (digest % 100 = 5 → which_set digest 10 10 = "valid") ∧
    (digest % 100 = 15 → which_set digest 10 10 = "test") := by
  simp only [which_set]
  refine ⟨fun h => ?_, fun h => ?_, fun h => ?_⟩
  · rw [h]; norm_num
  · rw [h]; norm_num
  · rw [h]; norm_num

/-- Witness for C7: digests 12345, 5 and 15 realise buckets 45, 5 and 15
respectively. -/
theorem whichSet_ten_ten_examples_witness :
    which_set 12345 10 10 = "train" ∧ which_set 5 10 10 = "valid" ∧
      which_set 15 10 10 = "test" :=
  ⟨(whichSet_ten_ten_examples 12345).1 (by decide),
   (whichSet_ten_ten_examples 5).2.1 (by decide),
   (whichSet_ten_ten_examples 15).2.2 (by decide)⟩

/-- C8: when the bucket is below the validation percentage, the testing
percentage cannot influence the result: the assignment is "valid" for
every testing percentage, hence identical across any two of them,
because the validation branch is tested first. -/
theorem whichSet_valid_ignores_testing (digest : ℤ) (v t1 t2 : ℚ)
    (h : ((digest % 100 : ℤ) : ℚ) < v) :
    which_set digest v t1 = "valid" ∧
      which_set digest v t1 = which_set digest v t2 := by
  simp only [which_set]
  rw [if_pos h, if_pos h]
  exact ⟨rfl, rfl⟩

/-- Witness for C8: digest 3 with v = 10 has bucket 3 < 10, so the
result is "valid" and agrees between t = 0 and t = 90. -/
theorem whichSet_valid_ignores_testing_witness :
    which_set 3 10 0 = "valid" ∧ which_set 3 10 0 = which_set 3 10 90 :=
  whichSet_valid_ignores_testing 3 10 0 90 (by norm_num)

/-- C9: which_set is total well beyond the documented range: for every
integer digest (negatives included) and all rational percentages
(negatives included) the result is one of the three labels, and a
negative validation percentage makes "valid" unreachable because the
bucket is never negative. -/
theorem whichSet_total_beyond_range (digest : ℤ) (v t : ℚ) :
    (which_set digest v t = "train" ∨ which_set digest v t = "valid" ∨
      which_set digest v t = "test") ∧
    (v < 0 → which_set digest v t ≠ "valid") := by
  have h0 : (0 : ℚ) ≤ ((digest % 100 : ℤ) : ℚ) := by
    exact_mod_cast bucket_nonneg digest
  constructor
  · simp only [which_set]
    split
    · right; left; rfl
    · split
      · right; right; rfl
      · left; rfl
  · intro hv
    simp only [which_set]
    rw [if_neg (by linarith)]
    split <;> simp

/-- Witness for C9: at digest -7 (bucket 93) with v = -5 and t = -1 the
result is defined and is not "valid". -/
theorem whichSet_total_beyond_range_witness :
    which_set (-7) (-5) (-1) ≠ "valid" :=
  (whichSet_total_beyond_range (-7) (-5) (-1)).2 (by norm_num)

/-- C10: new_basedir joins basedir with the final path component of
filename: it equals ospathJoin of basedir with splitTail of filename,
where splitTail is a slash-free suffix of filename; and any directory
part in front of the filename is discarded, so it has no effect on the
result. -/
theorem new_basedir_correct (filename basedir : String) :
    new_basedir filename basedir = ⟨ospathJoin basedir.data (splitTail filename.data)⟩ ∧
    (∀ p : String, new_basedir (p ++ "/" ++ filename) basedir =
      new_basedir filename basedir) ∧
    (splitTail filename.data).all (fun c => c != '/') = true ∧
    (∃ pre, filename.data = pre ++ splitTail filename.data) := by
  refine ⟨rfl, fun p => ?_, splitTail_no_slash _, splitTail_suffix _⟩
  unfold new_basedir
  have hdata : (p ++ "/" ++ filename).data = p.data ++ '/' :: filename.data := by
    simp [String.data_append]
  rw [hdata, splitTail_append_slash]
